import Mathlib

/-!
Shallow embedding of the core-runtime dispatch kernels
(`lib/core_runtime/kernels.cc`) of the tfrt repository.

The embedding models:
  * async-value states (`AVState`) and resolved async values (`RVal`),
  * the BEF attribute record and its materialization into an `OpAttrs`
    set (the attribute loop of `ExecuteOpImpl`, lines 196-254),
  * the pure dispatch outcomes of `ExecuteOp`, `ExecuteOpSeq` (both its
    synchronous path and its `RunWhenReady` continuation) and
    `ExecuteCoreRuntimeOp`,
  * a small-step machine for the sequenced dispatch, used for the
    temporal ordering property of the outgoing completion token.

Machine integers never overflow in the modelled code paths; tensor
handles and op handlers are opaque and modelled as `Nat`.
-/

/-- State of an async value: unresolved, concrete, or error.
Errors are decoded diagnostics, modelled as their message string. -/
inductive AVState (α : Type) : Type
  | unres : AVState α
  | conc (a : α) : AVState α
  | err (e : String) : AVState α
  deriving DecidableEq, Repr

/-- A resolved async value: concrete or error (no unresolved state).
`HostContext::RunWhenReady` fires its continuation only once every value
in its readiness set is resolved, so inside the continuation the handler
and the arguments have this type. -/
inductive RVal (α : Type) : Type
  | conc (a : α) : RVal α
  | err (e : String) : RVal α
  deriving DecidableEq, Repr

/-- Tensor handles are opaque to the dispatch kernels. -/
abbrev TensorHandle := Nat

/-- Op handlers are opaque pointers to pluggable backends. -/
abbrev OpHandler := Nat

/-- `tfrt::Chain`: the zero-payload completion-token value. -/
inductive Chain : Type
  | mk : Chain
  deriving DecidableEq, Repr

/-- BEF data types that can appear as the element/data type of an
attribute.  The materializer's data-type switch handles `bool`, `i32`,
`i64`, `f32`, `f64` and `string`; the remaining constructors fall into
its `default: llvm_unreachable` branch. -/
inductive BEFDataType : Type
  | bool | i8 | i16 | i32 | i64 | f16 | f32 | f64 | string
  deriving DecidableEq, Repr

/-- Data types outside the materializer's data-type switch. -/
inductive UnsupportedDT : Type
  | i8 | i16 | f16
  deriving DecidableEq, Repr

/-- Embed an unsupported data type back into `BEFDataType`. -/
def UnsupportedDT.toBEFDataType : UnsupportedDT → BEFDataType
  | .i8 => .i8
  | .i16 => .i16
  | .f16 => .f16

/-- `tfrt::OpAttrType`: the attribute-type vocabulary of the in-memory
attribute set.  Modelled from the spec: type tags map one-to-one onto
in-memory attribute types (`op_attrs.h` is not part of the sources). -/
abbrev OpAttrType := BEFDataType

/-- `GetOpAttrTypeFromBEFDataType`.  Modelled from the spec: the
conversion from a BEF data type to the attribute-set type vocabulary
(its implementation lives outside the given sources). -/
def getOpAttrTypeFromBEFDataType (t : BEFDataType) : OpAttrType := t

/-- A typed BEF attribute value (`TypedAttrBase` plus its payload).
Scalar float payloads are modelled as their raw bits; dense and
aggregate payloads are opaque, since `ExecuteOpImpl` stores them
wholesale without inspecting them.  `otherScalarV` is a data-type
attribute whose data type the materializer's switch does not handle;
`unknownV` is an attribute whose type tag falls into the outer
`default: llvm_unreachable` branch. -/
inductive AttrValue : Type
  | arrayV (elt : BEFDataType) (elems : List Nat)
  | denseV (payload : Nat)
  | boolV (b : Bool)
  | i32V (n : Int)
  | i64V (n : Int)
  | f32V (bits : Nat)
  | f64V (bits : Nat)
  | strV (s : String)
  | otherScalarV (dt : UnsupportedDT) (payload : Nat)
  | typeV (t : BEFDataType)
  | shapeV (dims : List Int)
  | aggV (payload : Nat)
  | unknownV
  deriving DecidableEq, Repr

/-- `BEFAttributeType`: the type tag carried by a typed attribute. -/
inductive BEFAttributeType : Type
  | arrayT (elt : BEFDataType)
  | denseT
  | dataTypeT (dt : BEFDataType)
  | typeT
  | shapeT
  | aggregateT
  | unknownT
  deriving DecidableEq, Repr

/-- `attr.type()`: the type tag of an attribute value. -/
def AttrValue.attrType : AttrValue → BEFAttributeType
  | .arrayV elt _ => .arrayT elt
  | .denseV _ => .denseT
  | .boolV _ => .dataTypeT .bool
  | .i32V _ => .dataTypeT .i32
  | .i64V _ => .dataTypeT .i64
  | .f32V _ => .dataTypeT .f32
  | .f64V _ => .dataTypeT .f64
  | .strV _ => .dataTypeT .string
  | .otherScalarV dt _ => .dataTypeT dt.toBEFDataType
  | .typeV _ => .typeT
  | .shapeV _ => .shapeT
  | .aggV _ => .aggregateT
  | .unknownV => .unknownT

/-- `IsArrayAttribute`. -/
def isArrayAttribute : BEFAttributeType → Bool
  | .arrayT _ => true
  | _ => false

/-- `IsDenseAttribute`. -/
def isDenseAttribute : BEFAttributeType → Bool
  | .denseT => true
  | _ => false

/-- `IsDataTypeAttribute`. -/
def isDataTypeAttribute : BEFAttributeType → Bool
  | .dataTypeT _ => true
  | _ => false

/-- An entry of the in-memory attribute set, recording which setter of
`OpAttrs` stored it and with what payload. -/
inductive OpAttrsEntry : Type
  | rawArray (ty : OpAttrType) (elems : List Nat)
  | denseE (payload : Nat)
  | boolE (b : Bool)
  | i32E (n : Int)
  | i64E (n : Int)
  | f32E (bits : Nat)
  | f64E (bits : Nat)
  | strE (s : String)
  | dtypeE (t : OpAttrType)
  | shapeE (dims : List Int)
  | aggE (payload : Nat)
  deriving DecidableEq, Repr

/-- The in-memory attribute set (`OpAttrs`), keyed by attribute name. -/
abbrev OpAttrs := List (String × OpAttrsEntry)

/-- The serialized attribute record: the `op_attr_array` aggregate of
(key, typed value) pairs. -/
abbrev AttrRecord := List (String × AttrValue)

/-- One iteration of the attribute loop of `ExecuteOpImpl`
(lines 196-254): dispatch on the entry's type tag and store through the
corresponding `OpAttrs` setter.  `none` models the two
`llvm_unreachable("unknown attribute type")` branches, which abort the
process. -/
def materializeEntry (key : String) (v : AttrValue) :
    Option (String × OpAttrsEntry) :=
  match v with
  | .arrayV elt elems =>
      some (key, .rawArray (getOpAttrTypeFromBEFDataType elt) elems)
  | .denseV p => some (key, .denseE p)
  | .boolV b => some (key, .boolE b)
  | .i32V n => some (key, .i32E n)
  | .i64V n => some (key, .i64E n)
  | .f32V bits => some (key, .f32E bits)
  | .f64V bits => some (key, .f64E bits)
  | .strV s => some (key, .strE s)
  | .otherScalarV _ _ => none
  | .typeV t => some (key, .dtypeE (getOpAttrTypeFromBEFDataType t))
  | .shapeV dims => some (key, .shapeE dims)
  | .aggV p => some (key, .aggE p)
  | .unknownV => none

/-- The whole attribute loop of `ExecuteOpImpl`: materialize each entry
in order; an unrecognized type tag aborts the loop (and the process). -/
def materializeAttrs : AttrRecord → Option OpAttrs
  | [] => some []
  | (k, v) :: rest =>
    match materializeEntry k v with
    | none => none
    | some e =>
      match materializeAttrs rest with
      | none => none
      | some tail => some (e :: tail)

/-- A resolved operation handle (`CoreRuntimeOp`).  Modelled from the
spec: the operation implementation is a callable that, given the
concrete argument list, the materialized attribute set and the declared
result count, populates every result slot, and updates its in/out
completion token to its own internal completion marker (its
implementation lives outside the given sources). -/
structure CoreRuntimeOp : Type where
  run : List TensorHandle → OpAttrs → Nat → List TensorHandle
  markerOf : AVState Unit → AVState Unit

/-- The ambient `CoreRuntime`.  Modelled from the spec: it exposes
`makeOp(name, handler) -> OperationHandle | NotFoundError`
(`core_runtime.cc` is not part of the given sources). -/
structure CoreRuntime : Type where
  makeOp : String → OpHandler → Except String CoreRuntimeOp

/-- Outcome of `ExecuteOpImpl` (lines 178-263): the result-future
states, whether the operation was invoked, whether the process aborted
in the attribute loop, and the final state of the threaded `op_chain`
(`none` when the caller passed `nullptr`). -/
structure ImplOutcome : Type where
  results : List (AVState TensorHandle)
  opInvoked : Bool
  aborted : Bool
  chainOut : Option (AVState Unit)
  deriving DecidableEq, Repr

/-- `ExecuteOpImpl`: materialize the attributes, then invoke the op on
the copied argument handles and emplace every result future with the
produced handles.  An unrecognized attribute tag aborts before the
invocation, leaving the result futures unset and `op_chain`
untouched. -/
def executeOpImpl (op : CoreRuntimeOp) (args : List TensorHandle)
    (opChain : Option (AVState Unit)) (nres : Nat) (record : AttrRecord) :
    ImplOutcome :=
  match materializeAttrs record with
  | none =>
    { results := List.replicate nres .unres, opInvoked := false,
      aborted := true, chainOut := opChain }
  | some attrs =>
    { results := (op.run args attrs nres).map .conc, opInvoked := true,
      aborted := false, chainOut := opChain.map op.markerOf }

/-- Observable outcome of a dispatch kernel: the error reported through
`KernelErrorHandler` (if any), whether the result futures were
allocated, their states, whether the op was invoked, and whether the
process aborted. -/
structure OpOutcome : Type where
  callerError : Option String
  resultsAllocated : Bool
  results : List (AVState TensorHandle)
  opInvoked : Bool
  aborted : Bool
  deriving DecidableEq, Repr

/-- Outcome of `ExecuteOpSeq`, extending the common outcome with the
state of the outgoing completion token and whether the execution was
deferred to a `RunWhenReady` continuation. -/
structure SeqOutcome extends OpOutcome : Type where
  outChain : AVState Unit
  deferred : Bool
  deriving DecidableEq, Repr

/-- Concrete values of a list of resolved async values, in order. -/
def concValues : List (RVal TensorHandle) → List TensorHandle
  | [] => []
  | .conc t :: rest => t :: concValues rest
  | .err _ :: rest => concValues rest

/-- First error in the argument list, in argument order (the
continuation of `ExecuteOpSeq` scans `arg_refs` in order and propagates
the first error it sees, lines 354-358). -/
def firstErr : List (RVal TensorHandle) → Option String
  | [] => none
  | .conc _ :: rest => firstErr rest
  | .err e :: _ => some e

/-- Concrete values of a list of async-value states, in order. -/
def stConcValues : List (AVState TensorHandle) → List TensorHandle
  | [] => []
  | .conc t :: rest => t :: stConcValues rest
  | _ :: rest => stConcValues rest

/-- Whether an async-value state is concrete (`AsyncValue::IsConcrete`:
false for unresolved and for error states). -/
def AVState.isConc : AVState TensorHandle → Bool
  | .conc _ => true
  | _ => false

/-- Whether a resolved async value is an error. -/
def RVal.isErr {α : Type} : RVal α → Bool
  | .err _ => true
  | .conc _ => false

/-- `ExecuteOp` (lines 266-283): the immediate dispatch path.  Look up
the ambient runtime, resolve the operation handle, and only then
allocate the result futures and run `ExecuteOpImpl` with no completion
token. -/
def executeOp (coreRt : Option CoreRuntime) (opHandler : OpHandler)
    (args : List TensorHandle) (nres : Nat) (record : AttrRecord)
    (opName : String) : OpOutcome :=
  match coreRt with
  | none =>
    { callerError := some "no CoreRuntime available",
      resultsAllocated := false, results := [], opInvoked := false,
      aborted := false }
  | some rt =>
    match rt.makeOp opName opHandler with
    | .error e =>
      { callerError := some e, resultsAllocated := false, results := [],
        opInvoked := false, aborted := false }
    | .ok op =>
      let impl := executeOpImpl op args none nres record
      { callerError := none, resultsAllocated := true,
        results := impl.results, opInvoked := impl.opInvoked,
        aborted := impl.aborted }

/-- `ExecuteCoreRuntimeOp` (lines 378-393): dispatch of an already
resolved `CoreRuntimeOp`, skipping name lookup. -/
def executeCoreRuntimeOp (coreRt : Option CoreRuntime)
    (op : CoreRuntimeOp) (args : List TensorHandle) (nres : Nat)
    (record : AttrRecord) : OpOutcome :=
  match coreRt with
  | none =>
    { callerError := some "no CoreRuntime available",
      resultsAllocated := false, results := [], opInvoked := false,
      aborted := false }
  | some _ =>
    let impl := executeOpImpl op args none nres record
    { callerError := none, resultsAllocated := true,
      results := impl.results, opInvoked := impl.opInvoked,
      aborted := impl.aborted }

/-- Outcome of the `RunWhenReady` continuation of `ExecuteOpSeq`
(lines 341-373), as the eventual states of the result futures and the
outgoing token.  `lookupPerformed` records whether `MakeOp` ran. -/
structure ContOutcome : Type where
  results : List (AVState TensorHandle)
  outChain : AVState Unit
  opInvoked : Bool
  lookupPerformed : Bool
  aborted : Bool
  deriving DecidableEq, Repr

/-- `propgate_error` of the continuation (lines 341-344): set the
outgoing token and every result future to the diagnosed error. -/
def propagateSeqError (e : String) (nres : Nat)
    (lookupPerformed : Bool) : ContOutcome :=
  { results := List.replicate nres (.err e), outChain := .err e,
    opInvoked := false, lookupPerformed := lookupPerformed,
    aborted := false }

/-- The `RunWhenReady` continuation of `ExecuteOpSeq` (lines 341-373).
When it fires, the handler and every argument are resolved (they form
the readiness set), but the incoming token may still be unresolved
(it is deliberately not part of the readiness set); `op_chain.IsError()`
is false on an unresolved token.  Checks happen in code order: handler
error, token error, `MakeOp`, then argument errors; only then is the op
invoked, and the outgoing token takes the eventual value of the op's
internal completion marker through the chained `AndThen`
(lines 363-373). -/
def seqContinuation (rt : CoreRuntime) (opName : String)
    (opHandler : RVal OpHandler) (inChain : AVState Unit)
    (args : List (RVal TensorHandle)) (nres : Nat)
    (record : AttrRecord) : ContOutcome :=
  match opHandler with
  | .err e => propagateSeqError e nres false
  | .conc h =>
    match inChain with
    | .err e => propagateSeqError e nres false
    | _ =>
      match rt.makeOp opName h with
      | .error e => propagateSeqError e nres true
      | .ok op =>
        match firstErr args with
        | some e => propagateSeqError e nres true
        | none =>
          let impl := executeOpImpl op (concValues args)
            (some inChain) nres record
          { results := impl.results, opInvoked := impl.opInvoked,
            lookupPerformed := true, aborted := impl.aborted,
            outChain :=
              if impl.aborted then .unres
              else (impl.chainOut).getD .unres }

/-- `ExecuteOpSeq` (lines 289-375): the sequenced dispatch path.  After
the runtime check, the result futures are allocated; if the handler and
every argument are already concrete (the `async_args` set of
lines 302-306 is empty -- note the incoming token is not part of it),
the op executes synchronously with the incoming token threaded through
and the outgoing token is set from the final `op_chain`; otherwise the
execution is deferred to a `RunWhenReady` continuation, modelled by
`seqContinuation`. -/
def executeOpSeq (coreRt : Option CoreRuntime)
    (opHandlerFut : AVState OpHandler) (inChain : AVState Unit)
    (argFuts : List (AVState TensorHandle)) (nres : Nat)
    (record : AttrRecord) (opName : String) : SeqOutcome :=
  match coreRt with
  | none =>
    { callerError := some "no CoreRuntime available",
      resultsAllocated := false, results := [], opInvoked := false,
      aborted := false, outChain := .unres, deferred := false }
  | some rt =>
    match opHandlerFut with
    | .conc h =>
      if argFuts.all AVState.isConc then
        match rt.makeOp opName h with
        | .error e =>
          { callerError := some e, resultsAllocated := true,
            results := List.replicate nres .unres, opInvoked := false,
            aborted := false, outChain := .unres, deferred := false }
        | .ok op =>
          let impl := executeOpImpl op (stConcValues argFuts)
            (some inChain) nres record
          { callerError := none, resultsAllocated := true,
            results := impl.results, opInvoked := impl.opInvoked,
            aborted := impl.aborted,
            outChain :=
              if impl.aborted then .unres
              else (impl.chainOut).getD .unres,
            deferred := false }
      else
        { callerError := none, resultsAllocated := true,
          results := List.replicate nres .unres, opInvoked := false,
          aborted := false, outChain := .unres, deferred := true }
    | _ =>
      { callerError := none, resultsAllocated := true,
        results := List.replicate nres .unres, opInvoked := false,
        aborted := false, outChain := .unres, deferred := true }

/-- First error in a list of async-value states (used by the
small-step machine's continuation body). -/
def firstErrSt : List (AVState TensorHandle) → Option String
  | [] => none
  | .err e :: _ => some e
  | _ :: rest => firstErrSt rest

/-- Static context of one sequenced dispatch: the ambient runtime, the
operation name and the attribute record. -/
structure SeqCtx : Type where
  rt : CoreRuntime
  name : String
  record : AttrRecord

/-- State of the small-step machine for one sequenced dispatch
(`ExecuteOpSeq`, deferred path).  `opMarker` is the op's internal
completion marker (the value `op_chain` refers to after the op ran);
`invokedWith` is a history variable recording the concrete argument
handles the op was invoked with; `effectDone` records that the op's
side effect has completed. -/
structure SeqState : Type where
  handler : AVState OpHandler
  inChain : AVState Unit
  args : List (AVState TensorHandle)
  results : List (AVState TensorHandle)
  outChain : AVState Unit
  opMarker : AVState Unit
  contFired : Bool
  opInvoked : Bool
  effectDone : Bool
  invokedWith : Option (List TensorHandle)
  deriving DecidableEq, Repr

/-- Initial machine state: every input and output future unresolved. -/
def initSeqState (nargs nres : Nat) : SeqState :=
  { handler := .unres, inChain := .unres,
    args := List.replicate nargs .unres,
    results := List.replicate nres .unres,
    outChain := .unres, opMarker := .unres, contFired := false,
    opInvoked := false, effectDone := false, invokedWith := none }

/-- Error propagation inside the machine's continuation body: the
outgoing token and every result future take the error; the op is not
invoked. -/
def propagateSt (e : String) (s : SeqState) : SeqState :=
  { s with
    contFired := true
    outChain := .err e
    results := s.results.map fun _ => .err e }

/-- Body of the `RunWhenReady` continuation (lines 341-373), as a state
transformer.  Fired only when the handler and every argument are
resolved; the incoming token may still be unresolved, and then its
`IsError()` check is false and the op is invoked with the pending token
threaded through.  On invocation the op's internal marker starts
unresolved; the `AndThen` of lines 363-373 later copies it into the
outgoing token. -/
def contBody (ctx : SeqCtx) (s : SeqState) : SeqState :=
  match s.handler with
  | .err e => propagateSt e s
  | .unres => s
  | .conc h =>
    match s.inChain with
    | .err e => propagateSt e s
    | _ =>
      match ctx.rt.makeOp ctx.name h with
      | .error e => propagateSt e s
      | .ok op =>
        match firstErrSt s.args with
        | some e => propagateSt e s
        | none =>
          match materializeAttrs ctx.record with
          | none => { s with contFired := true }
          | some attrs =>
            { s with
              contFired := true
              opInvoked := true
              invokedWith := some (stConcValues s.args)
              results :=
                (op.run (stConcValues s.args) attrs
                  s.results.length).map .conc
              opMarker := .unres }

/-- Small-step transition relation of one sequenced dispatch.  The
environment may resolve each input future once; the continuation fires
once when the handler and the arguments are resolved; the op's effect
completes some time after the invocation; the op's internal marker
resolves only after the effect is done and the incoming token is
resolved (modelled from the spec: the operation implementation resolves
its outgoing internal completion marker exactly once, after its effect
and after the token it was given); and the chained `AndThen`
(lines 363-373) copies the resolved marker into the outgoing token. -/
inductive SeqStep (ctx : SeqCtx) : SeqState → SeqState → Prop
  | resolveHandler (s : SeqState) (h : OpHandler) :
      s.handler = .unres → SeqStep ctx s { s with handler := .conc h }
  | errHandler (s : SeqState) (e : String) :
      s.handler = .unres → SeqStep ctx s { s with handler := .err e }
  | resolveChain (s : SeqState) :
      s.inChain = .unres → SeqStep ctx s { s with inChain := .conc () }
  | errChain (s : SeqState) (e : String) :
      s.inChain = .unres → SeqStep ctx s { s with inChain := .err e }
  | resolveArg (s : SeqState) (i : Nat) (t : TensorHandle) :
      s.args.get? i = some .unres →
      SeqStep ctx s { s with args := s.args.set i (.conc t) }
  | errArg (s : SeqState) (i : Nat) (e : String) :
      s.args.get? i = some .unres →
      SeqStep ctx s { s with args := s.args.set i (.err e) }
  | fireCont (s : SeqState) :
      s.contFired = false → s.handler ≠ .unres →
      (∀ a ∈ s.args, a ≠ .unres) → SeqStep ctx s (contBody ctx s)
  | opEffect (s : SeqState) :
      s.opInvoked = true → s.effectDone = false →
      SeqStep ctx s { s with effectDone := true }
  | resolveMarker (s : SeqState) :
      s.opInvoked = true → s.effectDone = true → s.inChain ≠ .unres →
      s.opMarker = .unres →
      SeqStep ctx s { s with opMarker := .conc () }
  | errMarker (s : SeqState) (e : String) :
      s.opInvoked = true → s.effectDone = true → s.inChain ≠ .unres →
      s.opMarker = .unres →
      SeqStep ctx s { s with opMarker := .err e }
  | fireAndThen (s : SeqState) :
      s.opInvoked = true → s.opMarker ≠ .unres → s.outChain = .unres →
      SeqStep ctx s { s with outChain := s.opMarker }

/-- Reachability for the sequenced-dispatch machine. -/
def SeqReachable (ctx : SeqCtx) : SeqState → SeqState → Prop :=
  Relation.ReflTransGen (SeqStep ctx)

/-- `OpAttrs::Set` and friends: store a value under a key, keeping keys
unique.  Modelled from the spec: the attribute set maps names to typed
values and keys are never duplicated (`op_attrs.cc` is not part of the
given sources). -/
def opAttrsSet (attrs : OpAttrs) (key : String) (e : OpAttrsEntry) :
    OpAttrs :=
  (key, e) :: attrs.filter fun p => p.1 ≠ key

/-- `OpAttrsSetBool` (lines 94-98), the `corert.op_attrs_set.bool`
kernel: store `static_cast<bool>(*value)` of the 8-bit payload under
the key and return a `Chain`. -/
def opAttrsSetBool (attrs : OpAttrs) (key : String) (value : Int) :
    OpAttrs × Chain :=
  (opAttrsSet attrs key (.boolE (value != 0)), Chain.mk)

/-- Whether an async-value state is an error. -/
def AVState.isErr {α : Type} : AVState α → Bool
  | .err _ => true
  | _ => false

/-- A concrete operation: it fills every result slot with the handle 0
and leaves the threaded completion token alone. -/
def opEx : CoreRuntimeOp :=
  { run := fun _ _ n => List.replicate n 0, markerOf := fun c => c }

/-- A runtime on which every name lookup succeeds with `opEx`. -/
def rtEx : CoreRuntime := { makeOp := fun _ _ => .ok opEx }

/-- A runtime on which every name lookup fails. -/
def rtBad : CoreRuntime := { makeOp := fun _ _ => .error "op not registered" }

/-- A dispatch context over `rtEx` with an empty attribute record. -/
def ctxEx : SeqCtx := { rt := rtEx, name := "add", record := [] }

theorem firstErr_map_conc (args : List TensorHandle) :
    firstErr (args.map RVal.conc) = none := by
  induction args with
  | nil => rfl
  | cons a rest ih => simpa [firstErr] using ih

theorem concValues_map_conc (args : List TensorHandle) :
    concValues (args.map RVal.conc) = args := by
  induction args with
  | nil => rfl
  | cons a rest ih => simpa [concValues] using ih

theorem stConcValues_map_conc (args : List TensorHandle) :
    stConcValues (args.map AVState.conc) = args := by
  induction args with
  | nil => rfl
  | cons a rest ih => simpa [stConcValues] using ih

theorem all_isConc_map_conc (args : List TensorHandle) :
    (args.map AVState.conc).all AVState.isConc = true := by
  induction args with
  | nil => rfl
  | cons a rest ih => simp [AVState.isConc, ih]

theorem executeOpImpl_results_chain_indep (op : CoreRuntimeOp)
    (args : List TensorHandle) (c d : Option (AVState Unit)) (nres : Nat)
    (record : AttrRecord) :
    (executeOpImpl op args c nres record).results =
      (executeOpImpl op args d nres record).results ∧
    (executeOpImpl op args c nres record).opInvoked =
      (executeOpImpl op args d nres record).opInvoked ∧
    (executeOpImpl op args c nres record).aborted =
      (executeOpImpl op args d nres record).aborted := by
  unfold executeOpImpl
  cases materializeAttrs record <;> simp

/-- C6: on the immediate path (`corert.executeop`), a failed operation
handle resolution (name not registered against the handler) is reported
directly to the caller and nothing else happens: the result futures are
never allocated, nothing is invoked. -/
theorem lookup_failure_reports_without_alloc (rt : CoreRuntime)
    (h : OpHandler) (args : List TensorHandle) (nres : Nat)
    (record : AttrRecord) (name : String) (e : String)
    (hmk : rt.makeOp name h = .error e) :
    executeOp (some rt) h args nres record name =
      { callerError := some e, resultsAllocated := false, results := [],
        opInvoked := false, aborted := false } := by
  simp [executeOp, hmk]

theorem lookup_failure_reports_without_alloc_witness :
    executeOp (some rtBad) 0 [] 2 [] "matmul" =
      { callerError := some "op not registered",
        resultsAllocated := false, results := [], opInvoked := false,
        aborted := false } :=
  lookup_failure_reports_without_alloc rtBad 0 [] 2 [] "matmul"
    "op not registered" rfl

/-- C7: the attribute materializer dispatches on the entry's type tag:
array payloads are stored through the generic raw-array setter with
their element type, dense-tensor, aggregate and shape payloads through
their dedicated typed setters, and scalar bool/i32/i64/f32/f64/string
and type-tag payloads through per-type setters, each keyed by the
entry's name. -/
theorem materialize_dispatch_by_tag (key : String) (elt : BEFDataType)
    (elems : List Nat) (p q : Nat) (b : Bool) (n m : Int) (x y : Nat)
    (str : String) (t : BEFDataType) (dims : List Int) :
    materializeEntry key (.arrayV elt elems) =
      some (key, .rawArray (getOpAttrTypeFromBEFDataType elt) elems) ∧
    isArrayAttribute (AttrValue.attrType (.arrayV elt elems)) = true ∧
    materializeEntry key (.denseV p) = some (key, .denseE p) ∧
    isDenseAttribute (AttrValue.attrType (.denseV p)) = true ∧
    materializeEntry key (.aggV q) = some (key, .aggE q) ∧
    materializeEntry key (.shapeV dims) = some (key, .shapeE dims) ∧
    materializeEntry key (.boolV b) = some (key, .boolE b) ∧
    isDataTypeAttribute (AttrValue.attrType (.boolV b)) = true ∧
    materializeEntry key (.i32V n) = some (key, .i32E n) ∧
    materializeEntry key (.i64V m) = some (key, .i64E m) ∧
    materializeEntry key (.f32V x) = some (key, .f32E x) ∧
    materializeEntry key (.f64V y) = some (key, .f64E y) ∧
    materializeEntry key (.strV str) = some (key, .strE str) ∧
    materializeEntry key (.typeV t) =
      some (key, .dtypeE (getOpAttrTypeFromBEFDataType t)) :=
  ⟨rfl, rfl, rfl, rfl, rfl, rfl, rfl, rfl, rfl, rfl, rfl, rfl, rfl, rfl⟩

/-- C8: on each dispatch entry point, a missing ambient `CoreRuntime`
is reported as "no CoreRuntime available" before any result future is
allocated and before any execution. -/
theorem null_coreruntime_short_circuit (h : OpHandler)
    (args : List TensorHandle) (hf : AVState OpHandler)
    (ch : AVState Unit) (argfs : List (AVState TensorHandle))
    (op : CoreRuntimeOp) (nres : Nat) (record : AttrRecord)
    (name : String) :
    executeOp none h args nres record name =
      { callerError := some "no CoreRuntime available",
        resultsAllocated := false, results := [], opInvoked := false,
        aborted := false } ∧
    executeOpSeq none hf ch argfs nres record name =
      { callerError := some "no CoreRuntime available",
        resultsAllocated := false, results := [], opInvoked := false,
        aborted := false, outChain := .unres, deferred := false } ∧
    executeCoreRuntimeOp none op args nres record =
      { callerError := some "no CoreRuntime available",
        resultsAllocated := false, results := [], opInvoked := false,
        aborted := false } :=
  ⟨rfl, rfl, rfl⟩

/-- C10: the `corert.op_attrs_set.bool` kernel stores the boolean
conversion of its 8-bit payload under the given key -- any nonzero
payload is stored as `true`, zero as `false` -- and returns a
completion token. -/
theorem opAttrsSetBool_semantics (attrs : OpAttrs) (key : String)
    (value : Int) (_hlo : -128 ≤ value) (_hhi : value ≤ 127) :
    (opAttrsSetBool attrs key value).1.lookup key =
      some (.boolE (value != 0)) ∧
    (value ≠ 0 →
      (opAttrsSetBool attrs key value).1.lookup key =
        some (.boolE true)) ∧
    (value = 0 →
      (opAttrsSetBool attrs key value).1.lookup key =
        some (.boolE false)) ∧
    (opAttrsSetBool attrs key value).2 = Chain.mk := by
  refine ⟨?_, fun hnz => ?_, fun hz => ?_, rfl⟩ <;>
    simp [opAttrsSetBool, opAttrsSet, List.lookup, bne, *]

theorem opAttrsSetBool_semantics_witness :
    (opAttrsSetBool [] "transpose" (-7)).1.lookup "transpose" =
      some (.boolE true) :=
  (opAttrsSetBool_semantics [] "transpose" (-7) (by decide)
    (by decide)).2.1 (by decide)

/-- C1 counterexample: with the handler and all arguments already
resolved and the incoming completion token already in the error state,
`corert.executeop.seq` takes its synchronous path (the readiness set of
lines 302-306 excludes the token), invokes the operation, and the
result futures carry the op's concrete values rather than the token's
error -- refuting the claim that the operation is never invoked in
this case. -/
theorem executeOpSeq_error_token_sync_invokes :
    (executeOpSeq (some rtEx) (.conc 0) (.err "boom") [] 1 []
      "add").opInvoked = true ∧
    (executeOpSeq (some rtEx) (.conc 0) (.err "boom") [] 1 []
      "add").results = [.conc 0] :=
  ⟨rfl, rfl⟩

/-- C1 amended: in the deferred continuation of a sequenced dispatch,
an errored handler or errored incoming token short-circuits -- the
operation is never invoked and that error is propagated to the
outgoing token and to every result future; an errored argument
short-circuits likewise provided operation-handle resolution succeeds
(on lookup failure the lookup error propagates instead). -/
theorem seqContinuation_error_short_circuit (rt : CoreRuntime)
    (name : String) (hv : OpHandler) (inChain : AVState Unit)
    (args : List (RVal TensorHandle)) (nres : Nat)
    (record : AttrRecord) :
    (∀ e,
      (seqContinuation rt name (.err e) inChain args nres
        record).opInvoked = false ∧
      (seqContinuation rt name (.err e) inChain args nres
        record).results = List.replicate nres (.err e) ∧
      (seqContinuation rt name (.err e) inChain args nres
        record).outChain = .err e) ∧
    (∀ e,
      (seqContinuation rt name (.conc hv) (.err e) args nres
        record).opInvoked = false ∧
      (seqContinuation rt name (.conc hv) (.err e) args nres
        record).results = List.replicate nres (.err e) ∧
      (seqContinuation rt name (.conc hv) (.err e) args nres
        record).outChain = .err e) ∧
    (∀ op e, rt.makeOp name hv = .ok op → firstErr args = some e →
      inChain.isErr = false →
      (seqContinuation rt name (.conc hv) inChain args nres
        record).opInvoked = false ∧
      (seqContinuation rt name (.conc hv) inChain args nres
        record).results = List.replicate nres (.err e) ∧
      (seqContinuation rt name (.conc hv) inChain args nres
        record).outChain = .err e) := by
  refine ⟨fun e => ?_, fun e => ?_, fun op e hmk hfe hch => ?_⟩
  · simp [seqContinuation, propagateSeqError]
  · simp [seqContinuation, propagateSeqError]
  · cases inChain <;>
      simp_all [seqContinuation, propagateSeqError, AVState.isErr]

theorem seqContinuation_error_short_circuit_witness :
    (seqContinuation rtEx "add" (.conc 0) .unres [.err "bad"] 2
      []).opInvoked = false ∧
    (seqContinuation rtEx "add" (.conc 0) .unres [.err "bad"] 2
      []).results = List.replicate 2 (.err "bad") ∧
    (seqContinuation rtEx "add" (.conc 0) .unres [.err "bad"] 2
      []).outChain = .err "bad" :=
  (seqContinuation_error_short_circuit rtEx "add" 0 .unres
    [.err "bad"] 2 []).2.2 opEx "bad" rfl rfl rfl

/-- C2 counterexample: with an operation name that fails to resolve,
the immediate path reports the lookup error to the caller and leaves
the result futures alone, while the deferred continuation stores the
lookup error into every result future and the outgoing token -- so the
two paths do not produce the same error states for every operation
name. -/
theorem immediate_deferred_lookup_divergence :
    (executeOp (some rtBad) 0 [] 1 [] "mystery").callerError =
      some "op not registered" ∧
    (executeOp (some rtBad) 0 [] 1 [] "mystery").results = [] ∧
    (seqContinuation rtBad "mystery" (.conc 0) (.conc ()) [] 1
      []).results = [.err "op not registered"] ∧
    (seqContinuation rtBad "mystery" (.conc 0) (.conc ()) [] 1
      []).outChain = .err "op not registered" :=
  ⟨rfl, rfl, rfl, rfl⟩

/-- C2 amended: provided operation-handle resolution succeeds,
dispatching through the immediate path with handler and arguments
already resolved produces the same result values, error states and
invocation behavior as the deferred continuation once its inputs have
resolved to the same values, and also as the sequenced kernel's
synchronous path; on lookup failure the immediate path reports the
error to the caller while the deferred continuation propagates it into
the results. -/
theorem immediate_deferred_equiv (rt : CoreRuntime)
    (op : CoreRuntimeOp) (name : String) (h : OpHandler)
    (args : List TensorHandle) (nres : Nat) (record : AttrRecord)
    (hmk : rt.makeOp name h = .ok op) :
    (executeOp (some rt) h args nres record name).results =
      (seqContinuation rt name (.conc h) (.conc ())
        (args.map RVal.conc) nres record).results ∧
    (executeOp (some rt) h args nres record name).opInvoked =
      (seqContinuation rt name (.conc h) (.conc ())
        (args.map RVal.conc) nres record).opInvoked ∧
    (executeOp (some rt) h args nres record name).aborted =
      (seqContinuation rt name (.conc h) (.conc ())
        (args.map RVal.conc) nres record).aborted ∧
    (executeOp (some rt) h args nres record name).results =
      (executeOpSeq (some rt) (.conc h) (.conc ())
        (args.map AVState.conc) nres record name).results ∧
    (executeOp (some rt) h args nres record name).callerError =
      (executeOpSeq (some rt) (.conc h) (.conc ())
        (args.map AVState.conc) nres record name).callerError ∧
    (executeOp (some rt) h args nres record name).opInvoked =
      (executeOpSeq (some rt) (.conc h) (.conc ())
        (args.map AVState.conc) nres record name).opInvoked := by
  obtain ⟨hres, hinv, habt⟩ :=
    executeOpImpl_results_chain_indep op args none (some (.conc ()))
      nres record
  simp [executeOp, executeOpSeq, seqContinuation, hmk,
    firstErr_map_conc, concValues_map_conc, stConcValues_map_conc,
    all_isConc_map_conc, hres, hinv, habt]

theorem immediate_deferred_equiv_witness :
    (executeOp (some rtEx) 3 [5] 1 [] "add").results =
      (seqContinuation rtEx "add" (.conc 3) (.conc ())
        ([5].map RVal.conc) 1 []).results :=
  (immediate_deferred_equiv rtEx opEx "add" 3 [5] 1 [] rfl).1

/-- C4 counterexample: in the deferred continuation, the operation
handle is resolved (the `MakeOp` name lookup runs, line 349) even
though an argument has resolved to an error -- the argument error
checks only happen afterwards (lines 354-358), refuting the claim that
the lookup is performed only if all inputs are error-free. -/
theorem lookup_runs_despite_arg_error :
    (seqContinuation rtEx "add" (.conc 0) (.conc ()) [.err "boom"] 1
      []).lookupPerformed = true ∧
    (seqContinuation rtEx "add" (.conc 0) (.conc ()) [.err "boom"] 1
      []).opInvoked = false :=
  ⟨rfl, rfl⟩

/-- C4 amended: in the deferred continuation, the handler and the
incoming token are checked for error before the operation handle is
resolved -- an error in either suppresses the lookup -- while argument
errors are checked only after the lookup and before invocation, and
the operation is invoked only when no input resolved to an error. -/
theorem continuation_check_order (rt : CoreRuntime) (name : String)
    (hv : OpHandler) (inChain : AVState Unit)
    (args : List (RVal TensorHandle)) (nres : Nat)
    (record : AttrRecord) (opH : RVal OpHandler) :
    (∀ e, (seqContinuation rt name (.err e) inChain args nres
      record).lookupPerformed = false) ∧
    (∀ e, (seqContinuation rt name (.conc hv) (.err e) args nres
      record).lookupPerformed = false) ∧
    (inChain.isErr = false →
      (seqContinuation rt name (.conc hv) inChain args nres
        record).lookupPerformed = true) ∧
    ((seqContinuation rt name opH inChain args nres
        record).opInvoked = true →
      opH.isErr = false ∧ inChain.isErr = false ∧
      firstErr args = none ∧
      (seqContinuation rt name opH inChain args nres
        record).lookupPerformed = true) := by
  refine ⟨fun e => ?_, fun e => ?_, fun hch => ?_, fun hinv => ?_⟩
  · simp [seqContinuation, propagateSeqError]
  · simp [seqContinuation, propagateSeqError]
  · cases inChain with
    | err e => simp [AVState.isErr] at hch
    | unres =>
      cases hmk : rt.makeOp name hv with
      | error e => simp [seqContinuation, hmk, propagateSeqError]
      | ok op =>
        cases hfe : firstErr args <;>
          simp [seqContinuation, hmk, hfe, propagateSeqError]
    | conc u =>
      cases hmk : rt.makeOp name hv with
      | error e => simp [seqContinuation, hmk, propagateSeqError]
      | ok op =>
        cases hfe : firstErr args <;>
          simp [seqContinuation, hmk, hfe, propagateSeqError]
  · cases opH with
    | err e => simp [seqContinuation, propagateSeqError] at hinv
    | conc h =>
      cases hch : inChain with
      | err e => simp_all [seqContinuation, propagateSeqError]
      | unres =>
        cases hmk : rt.makeOp name h with
        | error e => simp_all [seqContinuation, propagateSeqError]
        | ok op =>
          cases hfe : firstErr args with
          | some e => simp_all [seqContinuation, propagateSeqError]
          | none =>
            exact ⟨rfl, rfl, rfl, by
              simp [seqContinuation, hmk, hfe]⟩
      | conc u =>
        cases hmk : rt.makeOp name h with
        | error e => simp_all [seqContinuation, propagateSeqError]
        | ok op =>
          cases hfe : firstErr args with
          | some e => simp_all [seqContinuation, propagateSeqError]
          | none =>
            exact ⟨rfl, rfl, rfl, by
              simp [seqContinuation, hmk, hfe]⟩

theorem continuation_check_order_witness :
    (seqContinuation rtEx "add" (.conc 0) .unres [.conc 7] 1
      []).lookupPerformed = true :=
  (continuation_check_order rtEx "add" 0 .unres [.conc 7] 1 []
    (.conc 0)).2.2.1 rfl

/-- C5 counterexample: a dispatch whose attribute record contains an
entry with an unrecognized type tag does not hand the caller an error,
and the result futures have already been allocated by the time the
materializer aborts -- refuting the claim that the caller receives an
error and that no result futures are ever allocated. -/
theorem unknown_attr_no_caller_error :
    (executeOp (some rtEx) 0 [] 1 [("k", .unknownV)]
      "add").callerError = none ∧
    (executeOp (some rtEx) 0 [] 1 [("k", .unknownV)]
      "add").resultsAllocated = true ∧
    (executeOp (some rtEx) 0 [] 1 [("k", .unknownV)]
      "add").aborted = true :=
  ⟨rfl, rfl, rfl⟩

/-- C5 amended: an unrecognized attribute type tag makes
materialization abort fatally (`llvm_unreachable`) before any
operation invocation -- the operation is never invoked and the result
futures are left unset -- but the result futures have already been
allocated and the caller receives no recoverable error. -/
theorem unknown_attr_aborts_before_invoke (rt : CoreRuntime)
    (op : CoreRuntimeOp) (h : OpHandler) (args : List TensorHandle)
    (nres : Nat) (record : AttrRecord) (name : String)
    (hmat : materializeAttrs record = none)
    (hmk : rt.makeOp name h = .ok op) :
    (executeOp (some rt) h args nres record name).opInvoked = false ∧
    (executeOp (some rt) h args nres record name).aborted = true ∧
    (executeOp (some rt) h args nres record name).resultsAllocated =
      true ∧
    (executeOp (some rt) h args nres record name).callerError =
      none ∧
    (executeOp (some rt) h args nres record name).results =
      List.replicate nres .unres := by
  simp [executeOp, executeOpImpl, hmk, hmat]

theorem unknown_attr_aborts_before_invoke_witness :
    (executeOp (some rtEx) 0 [] 1 [("k", .otherScalarV .i8 3)]
      "add").opInvoked = false ∧
    (executeOp (some rtEx) 0 [] 1 [("k", .otherScalarV .i8 3)]
      "add").aborted = true ∧
    (executeOp (some rtEx) 0 [] 1 [("k", .otherScalarV .i8 3)]
      "add").resultsAllocated = true ∧
    (executeOp (some rtEx) 0 [] 1 [("k", .otherScalarV .i8 3)]
      "add").callerError = none ∧
    (executeOp (some rtEx) 0 [] 1 [("k", .otherScalarV .i8 3)]
      "add").results = List.replicate 1 .unres :=
  unknown_attr_aborts_before_invoke rtEx opEx 0 [] 1
    [("k", .otherScalarV .i8 3)] "add" rfl rfl

/-- Invariant of the sequenced-dispatch machine tying the outgoing
token to the op's internal marker, the op's effect and the incoming
token. -/
def SeqInv (s : SeqState) : Prop :=
  (s.opMarker ≠ .unres →
    s.opInvoked = true ∧ s.effectDone = true ∧ s.inChain ≠ .unres) ∧
  (s.outChain = .conc () → s.opMarker = .conc ()) ∧
  (s.effectDone = true → s.opInvoked = true) ∧
  (s.opInvoked = true → s.contFired = true)

theorem seqInv_init (nargs nres : Nat) :
    SeqInv (initSeqState nargs nres) :=
  ⟨fun hm => absurd rfl hm, fun ho => by simp [initSeqState] at ho,
   fun he => by simp [initSeqState] at he,
   fun hi => by simp [initSeqState] at hi⟩

theorem seqInv_propagateSt (e : String) (s : SeqState)
    (hnm : s.opMarker = .unres)
    (hi3 : s.effectDone = true → s.opInvoked = true) :
    SeqInv (propagateSt e s) := by
  refine ⟨fun hm => ?_, fun ho => ?_, fun he => ?_, fun _ => rfl⟩
  · exact absurd hnm hm
  · simp [propagateSt] at ho
  · exact hi3 he

theorem seqInv_contBody (ctx : SeqCtx) (s : SeqState)
    (hcf : s.contFired = false) (hinv : SeqInv s) :
    SeqInv (contBody ctx s) := by
  obtain ⟨i1, i2, i3, i4⟩ := hinv
  have hni : s.opInvoked = false := by
    cases hop : s.opInvoked
    · rfl
    · rw [i4 hop] at hcf
      exact absurd hcf (by simp)
  have hnm : s.opMarker = .unres := by
    by_contra hm
    rw [i4 (i1 hm).1] at hcf
    exact absurd hcf (by simp)
  have hno : s.outChain ≠ .conc () := by
    intro ho
    rw [i2 ho] at hnm
    exact absurd hnm (by simp)
  unfold contBody
  split
  · exact seqInv_propagateSt _ _ hnm i3
  · exact ⟨i1, i2, i3, i4⟩
  · split
    · exact seqInv_propagateSt _ _ hnm i3
    · split
      · exact seqInv_propagateSt _ _ hnm i3
      · split
        · exact seqInv_propagateSt _ _ hnm i3
        · split
          · exact ⟨fun hm => absurd hnm hm, fun ho => absurd ho hno,
              i3, fun _ => rfl⟩
          · exact ⟨fun hm => absurd rfl hm, fun ho => absurd ho hno,
              fun _ => rfl, fun _ => rfl⟩

theorem seqInv_step (ctx : SeqCtx) (s sp : SeqState)
    (hstep : SeqStep ctx s sp) (hinv : SeqInv s) : SeqInv sp := by
  obtain ⟨i1, i2, i3, i4⟩ := hinv
  cases hstep with
  | resolveHandler h hh => exact ⟨i1, i2, i3, i4⟩
  | errHandler e hh => exact ⟨i1, i2, i3, i4⟩
  | resolveChain hc =>
    exact ⟨fun hm => ⟨(i1 hm).1, (i1 hm).2.1, by simp⟩, i2, i3, i4⟩
  | errChain e hc =>
    exact ⟨fun hm => ⟨(i1 hm).1, (i1 hm).2.1, by simp⟩, i2, i3, i4⟩
  | resolveArg i t hi => exact ⟨i1, i2, i3, i4⟩
  | errArg i e hi => exact ⟨i1, i2, i3, i4⟩
  | fireCont hcf hh ha => exact seqInv_contBody ctx s hcf ⟨i1, i2, i3, i4⟩
  | opEffect hi hd =>
    exact ⟨fun hm => ⟨hi, rfl, (i1 hm).2.2⟩, i2, fun _ => hi,
      fun _ => i4 hi⟩
  | resolveMarker hi hd hc hm0 =>
    exact ⟨fun _ => ⟨hi, hd, hc⟩, fun _ => rfl, fun _ => hi,
      fun _ => i4 hi⟩
  | errMarker e hi hd hc hm0 =>
    refine ⟨fun _ => ⟨hi, hd, hc⟩, fun ho => ?_, fun _ => hi,
      fun _ => i4 hi⟩
    · rw [i2 ho] at hm0
      exact absurd hm0 (by simp)
  | fireAndThen hi hm hoc =>
    exact ⟨i1, fun ho => ho, i3, i4⟩

theorem seqInv_reachable (ctx : SeqCtx) (nargs nres : Nat)
    (s : SeqState)
    (hr : SeqReachable ctx (initSeqState nargs nres) s) : SeqInv s := by
  induction hr with
  | refl => exact seqInv_init nargs nres
  | tail hab hbc ih => exact seqInv_step ctx _ _ hbc ih

/-- C3: in every reachable state of a sequenced dispatch, if the
outgoing completion token has become ready (concrete), then the
operation was invoked, its effect has completed, the incoming token
had resolved, and the op's own internal completion marker has resolved
to ready -- so "outgoing token ready" strictly happens-after both the
incoming token becoming ready and the operation's effect completing,
not merely after the operation was invoked. -/
theorem outChain_ready_after_effect (ctx : SeqCtx) (nargs nres : Nat)
    (s : SeqState)
    (hr : SeqReachable ctx (initSeqState nargs nres) s)
    (hout : s.outChain = .conc ()) :
    s.opInvoked = true ∧ s.effectDone = true ∧ s.inChain ≠ .unres ∧
      s.opMarker = .conc () := by
  obtain ⟨i1, i2, i3, i4⟩ := seqInv_reachable ctx nargs nres s hr
  have hm := i2 hout
  have h1 := i1 (by rw [hm]; simp)
  exact ⟨h1.1, h1.2.1, h1.2.2, hm⟩

theorem outChain_ready_after_effect_witness :
    ({ handler := .conc 7, inChain := .conc (), args := [],
       results := [.conc 0], outChain := .conc (),
       opMarker := .conc (), contFired := true, opInvoked := true,
       effectDone := true, invokedWith := some [] } :
        SeqState).opInvoked = true ∧
    ({ handler := .conc 7, inChain := .conc (), args := [],
       results := [.conc 0], outChain := .conc (),
       opMarker := .conc (), contFired := true, opInvoked := true,
       effectDone := true, invokedWith := some [] } :
        SeqState).effectDone = true ∧
    ({ handler := .conc 7, inChain := .conc (), args := [],
       results := [.conc 0], outChain := .conc (),
       opMarker := .conc (), contFired := true, opInvoked := true,
       effectDone := true, invokedWith := some [] } :
        SeqState).inChain ≠ .unres ∧
    ({ handler := .conc 7, inChain := .conc (), args := [],
       results := [.conc 0], outChain := .conc (),
       opMarker := .conc (), contFired := true, opInvoked := true,
       effectDone := true, invokedWith := some [] } :
        SeqState).opMarker = .conc () := by
  refine outChain_ready_after_effect ctxEx 0 1 _ ?_ rfl
  have t1 : SeqReachable ctxEx (initSeqState 0 1)
      { initSeqState 0 1 with handler := .conc 7 } :=
    Relation.ReflTransGen.single (SeqStep.resolveHandler _ 7 rfl)
  have t2 := Relation.ReflTransGen.tail t1
    (SeqStep.resolveChain _ rfl)
  have t3 := Relation.ReflTransGen.tail t2
    (SeqStep.fireCont _ rfl (by decide) (by decide))
  have t4 := Relation.ReflTransGen.tail t3
    (SeqStep.opEffect _ rfl rfl)
  have t5 := Relation.ReflTransGen.tail t4
    (SeqStep.resolveMarker _ rfl rfl (by decide) rfl)
  have t6 := Relation.ReflTransGen.tail t5
    (SeqStep.fireAndThen _ rfl (by decide) rfl)
  exact t6

/-- The machine state used to witness the argument-preservation
property: handler and single argument resolved, continuation not yet
fired. -/
def sWit9 : SeqState :=
  { handler := .conc 7, inChain := .conc (), args := [.conc 5],
    results := [.unres], outChain := .unres, opMarker := .unres,
    contFired := false, opInvoked := false, effectDone := false,
    invokedWith := none }

/-- C9: the step that invokes the operation reads the argument handles
out of the argument futures without consuming them: after the step the
argument futures are unchanged, and the operation was invoked with
exactly the concrete values held in those futures. -/
theorem op_invocation_preserves_args (ctx : SeqCtx) (s sp : SeqState)
    (hstep : SeqStep ctx s sp) (h0 : s.opInvoked = false)
    (h1 : sp.opInvoked = true) :
    sp.args = s.args ∧ sp.invokedWith = some (stConcValues s.args) := by
  cases hstep with
  | resolveHandler h hh => exact absurd h1 (by simp [h0])
  | errHandler e hh => exact absurd h1 (by simp [h0])
  | resolveChain hc => exact absurd h1 (by simp [h0])
  | errChain e hc => exact absurd h1 (by simp [h0])
  | resolveArg i t hi => exact absurd h1 (by simp [h0])
  | errArg i e hi => exact absurd h1 (by simp [h0])
  | opEffect hi hd => exact absurd hi (by simp [h0])
  | resolveMarker hi hd hc hm0 => exact absurd hi (by simp [h0])
  | errMarker e hi hd hc hm0 => exact absurd hi (by simp [h0])
  | fireAndThen hi hm hoc => exact absurd hi (by simp [h0])
  | fireCont hcf hh ha =>
    cases hhd : s.handler with
    | err e => simp [contBody, hhd, propagateSt, h0] at h1
    | unres => simp [contBody, hhd, h0] at h1
    | conc h =>
      cases hch : s.inChain with
      | err e => simp [contBody, hhd, hch, propagateSt, h0] at h1
      | unres =>
        cases hmk : ctx.rt.makeOp ctx.name h with
        | error e =>
          simp [contBody, hhd, hch, hmk, propagateSt, h0] at h1
        | ok op =>
          cases hfe : firstErrSt s.args with
          | some e =>
            simp [contBody, hhd, hch, hmk, hfe, propagateSt, h0] at h1
          | none =>
            cases hma : materializeAttrs ctx.record with
            | none => simp [contBody, hhd, hch, hmk, hfe, hma, h0] at h1
            | some attrs =>
              constructor <;> simp [contBody, hhd, hch, hmk, hfe, hma]
      | conc u =>
        cases hmk : ctx.rt.makeOp ctx.name h with
        | error e =>
          simp [contBody, hhd, hch, hmk, propagateSt, h0] at h1
        | ok op =>
          cases hfe : firstErrSt s.args with
          | some e =>
            simp [contBody, hhd, hch, hmk, hfe, propagateSt, h0] at h1
          | none =>
            cases hma : materializeAttrs ctx.record with
            | none => simp [contBody, hhd, hch, hmk, hfe, hma, h0] at h1
            | some attrs =>
              constructor <;> simp [contBody, hhd, hch, hmk, hfe, hma]

theorem op_invocation_preserves_args_witness :
    (contBody ctxEx sWit9).args = sWit9.args ∧
    (contBody ctxEx sWit9).invokedWith =
      some (stConcValues sWit9.args) :=
  op_invocation_preserves_args ctxEx sWit9 (contBody ctxEx sWit9)
    (SeqStep.fireCont _ rfl (by decide) (by decide)) rfl rfl
